import Mathlib

/-!
Verification of `react-cmp-selector` (`src/src/GetCmpByAttr.tsx`).

The repository exports a single function `getCmpByAttr` that flattens its
`children` with `React.Children.toArray`, finds the first valid element `cmp`
with `cmp.props[attr] === value`, and returns `cloneElement(cmp, props)`;
when no child matches it returns `null`.  Debug logging is gated on the
`debug` flag.  `useMemo` is semantically the identity (a caching hint), so the
embedding is the memoized computation itself.

Embedding choices:
* JavaScript property values are modelled by `JVal` (strings, numbers,
  booleans, null); `===` against the string parameter `value` succeeds exactly
  on the equal string value, with no coercion.
* React nodes are `Node π`, parametric in the representation `π` of the props
  record of an element: `Node PropObj` (props inline, the pure model) and
  `Node Nat` (props as heap addresses, the heap model used for the frame and
  purity claims).
* `React.Children.toArray` flattens nested arrays and drops `null` and
  booleans, keeping strings, numbers and elements; fragments are elements and
  are not flattened, matching React.
* `cloneElement(el, config)` builds a new element whose props are
  `Object.assign({}, el.props, config)`; `assignProps` mirrors that merge,
  including JavaScript's key ordering (existing keys keep their position with
  the overridden value, new keys are appended in `config` order).
* Console output is reified as a `List (LogEntry π)` result component.
* An `Except`-valued evaluator (`getCmpByAttrE`) makes JavaScript's
  "property access on a non-object throws" explicit, to settle the
  no-crash claim: the `isValidElement` guard short-circuits before
  `cmp.props[attr]` is evaluated.
-/

/-- A JavaScript value that can sit in a props record.  `===` between such a
value and a string is decidable equality with `JVal.vStr`. -/
inductive JVal where
  | vStr (s : String)
  | vNum (n : Int)
  | vBool (b : Bool)
  | vNull
deriving DecidableEq, Repr

/-- A props record: an insertion-ordered list of key/value bindings, as a
JavaScript object literal.  Lookup takes the first binding of a key. -/
abbrev PropObj := List (String × JVal)

/-- A React node, parametric in the representation `π` of an element's props:
`PropObj` for the pure model, a heap address for the heap model.  `array`
is a (possibly nested) JSX children array. -/
inductive Node (π : Type) where
  | element (tag : String) (props : π)
  | text (s : String)
  | num (n : Int)
  | nullNode
  | boolNode (b : Bool)
  | array (elems : List (Node π))

/-- Pure React nodes: elements carry their props record inline. -/
abbrev ReactNode := Node PropObj

/-- First-binding lookup in a props record: `props[key]`, `none` meaning
`undefined`. -/
def lookupProp : PropObj → String → Option JVal
  | [], _ => none
  | (k, v) :: ps, key => if k = key then some v else lookupProp ps key

/-- `React.isValidElement`: true exactly on elements. -/
def isValidElement : Node π → Bool
  | Node.element _ _ => true
  | _ => false

/-- The props record of a node; non-elements have none (the pure model reads
an empty record there, and is only ever consulted behind the
`isValidElement` guard — `propsAccessE` models the raw throwing access). -/
def propsOf : ReactNode → PropObj
  | Node.element _ ps => ps
  | _ => []

/-- The find predicate of the source,
`isValidElement(cmp) && cmp.props[attr] === value`. -/
def matchesNode (attr value : String) (cmp : ReactNode) : Bool :=
  isValidElement cmp && decide (lookupProp (propsOf cmp) attr = some (JVal.vStr value))

mutual
/-- `React.Children.toArray`: flatten nested arrays, drop `null` and booleans,
keep strings, numbers and elements in declaration order. -/
def childrenToArray : Node π → List (Node π)
  | Node.nullNode => []
  | Node.boolNode _ => []
  | Node.array xs => childrenToArrayList xs
  | Node.element t ps => [Node.element t ps]
  | Node.text s => [Node.text s]
  | Node.num n => [Node.num n]

/-- `childrenToArray` mapped over a children array, concatenating results. -/
def childrenToArrayList : List (Node π) → List (Node π)
  | [] => []
  | x :: xs => childrenToArray x ++ childrenToArrayList xs
end

/-- `Object.assign({}, base, extra)`: keys of `base` keep their position, a
key also present in `extra` takes its `extra` value, and keys only in
`extra` are appended in `extra` order. -/
def assignProps (base extra : PropObj) : PropObj :=
  (base.map fun p =>
    match lookupProp extra p.1 with
    | some v => (p.1, v)
    | none => p) ++
  extra.filter fun q => (lookupProp base q.1).isNone

/-- `React.cloneElement(el, config)`: a fresh element of the same tag whose
props are the merge of the original props with `config`.  Only ever applied
to valid elements in the source. -/
def cloneElement : ReactNode → PropObj → ReactNode
  | Node.element t ps, extra => Node.element t (assignProps ps extra)
  | n, _ => n

/-- One console emission of the function: the `console.log` of a matched node
or the `console.warn` naming the attribute and value searched. -/
inductive LogEntry (π : Type) where
  | info (cmp : Node π)
  | warn (attr value : String)

/-- The body of `getCmpByAttr` after destructuring defaults: flatten the
children, find the first matching valid element, clone it with the extra
props (logging when `debug`), otherwise return `null` (warning when
`debug`).  The second component reifies the console output. -/
def getCmpByAttrCore (children : ReactNode) (attr value : String)
    (extra : PropObj) (debug : Bool) : Option ReactNode × List (LogEntry PropObj) :=
  match (childrenToArray children).find? (matchesNode attr value) with
  | some m => (some (cloneElement m extra), if debug then [LogEntry.info m] else [])
  | none => (none, if debug then [LogEntry.warn attr value] else [])

/-- The argument record `GetCmpByAttrProps` of the source; `none` in an
optional field is an omitted (or `undefined`) argument. -/
structure GetCmpByAttrProps where
  children : ReactNode
  attr : Option String
  value : Option String
  props : Option PropObj
  debug : Option Bool

/-- `getCmpByAttr` proper: destructure the record with the source's defaults
`attr = 'data-slot'`, `value = ''`, `props = {}`, `debug = false` and run
the body. -/
def getCmpByAttr (args : GetCmpByAttrProps) : Option ReactNode × List (LogEntry PropObj) :=
  getCmpByAttrCore args.children (args.attr.getD "data-slot") (args.value.getD "")
    (args.props.getD []) (args.debug.getD false)

/-! ### The throwing evaluator

JavaScript evaluation of the find predicate with property access made
explicit: reading `.props[attr]` off a non-element throws a `TypeError`.
The source's `isValidElement(cmp) &&` guard short-circuits, so the access
never happens; `getCmpByAttrE` is the function under these semantics. -/

/-- Raw `cmp.props[attr]`-style access: elements expose their props record,
every other node makes the access throw. -/
def propsAccessE : ReactNode → Except String PropObj
  | Node.element _ ps => Except.ok ps
  | _ => Except.error "TypeError: cannot read properties of a non-element"

/-- The find predicate under throwing semantics:
`isValidElement(cmp) && cmp.props[attr] === value`, the right conjunct
evaluated (and its property access performed) only when the guard holds. -/
def matchesE (attr value : String) (cmp : ReactNode) : Except String Bool :=
  if isValidElement cmp then
    match propsAccessE cmp with
    | Except.ok ps => Except.ok (decide (lookupProp ps attr = some (JVal.vStr value)))
    | Except.error e => Except.error e
  else Except.ok false

/-- `Array.prototype.find` with a predicate that may throw. -/
def findFirstE (p : ReactNode → Except String Bool) : List ReactNode → Except String (Option ReactNode)
  | [] => Except.ok none
  | x :: xs =>
    match p x with
    | Except.error e => Except.error e
    | Except.ok true => Except.ok (some x)
    | Except.ok false => findFirstE p xs

/-- `getCmpByAttrCore` under throwing semantics: an uncaught `TypeError`
would surface as `Except.error`. -/
def getCmpByAttrE (children : ReactNode) (attr value : String)
    (extra : PropObj) (debug : Bool) :
    Except String (Option ReactNode × List (LogEntry PropObj)) :=
  match findFirstE (matchesE attr value) (childrenToArray children) with
  | Except.error e => Except.error e
  | Except.ok (some m) =>
    Except.ok (some (cloneElement m extra), if debug then [LogEntry.info m] else [])
  | Except.ok none =>
    Except.ok (none, if debug then [LogEntry.warn attr value] else [])

/-! ### The heap model

JavaScript objects live on a heap and elements reference their props object;
cloning allocates a fresh object `{...el.props, ...config}` and mutation of an
existing object would show up as a changed heap cell.  `getCmpByAttrH` threads
the heap explicitly, so the no-mutation (frame) and purity claims become
provable statements about the ending heap and the observed result. -/

/-- The props-object heap: cell `a` holds the props record at address `a`. -/
structure Heap where
  objs : List PropObj

/-- Dereference address `a` (a dangling address reads as the empty record;
the function never creates one). -/
def Heap.get (h : Heap) (a : Nat) : PropObj := (h.objs[a]?).getD []

/-- Allocate a fresh props object, returning the extended heap and the fresh
address. -/
def Heap.alloc (h : Heap) (o : PropObj) : Heap × Nat :=
  (⟨h.objs ++ [o]⟩, h.objs.length)

/-- Heap nodes: elements hold the address of their props object. -/
abbrev HNode := Node Nat

mutual
/-- Observe a heap node as a pure node by dereferencing every props address. -/
def obsNode (h : Heap) : HNode → ReactNode
  | Node.element t a => Node.element t (h.get a)
  | Node.text s => Node.text s
  | Node.num n => Node.num n
  | Node.nullNode => Node.nullNode
  | Node.boolNode b => Node.boolNode b
  | Node.array xs => Node.array (obsNodeList h xs)

/-- `obsNode` mapped over a children array. -/
def obsNodeList (h : Heap) : List HNode → List ReactNode
  | [] => []
  | x :: xs => obsNode h x :: obsNodeList h xs
end

/-- The find predicate on heap nodes: dereference the element's props object
and compare `props[attr] === value`. -/
def matchesH (h : Heap) (attr value : String) : HNode → Bool
  | Node.element _ a => decide (lookupProp (h.get a) attr = some (JVal.vStr value))
  | _ => false

/-- `getCmpByAttrCore` on the heap: the scan only reads the heap; a match
clones by allocating a fresh props object holding
`Object.assign({}, el.props, config)`. -/
def getCmpByAttrH (h : Heap) (children : HNode) (attr value : String)
    (extra : PropObj) (debug : Bool) :
    (Option HNode × List (LogEntry Nat)) × Heap :=
  match (childrenToArray children).find? (matchesH h attr value) with
  | some (Node.element t a) =>
    let alloc := h.alloc (assignProps (h.get a) extra)
    ((some (Node.element t alloc.2), if debug then [LogEntry.info (Node.element t a)] else []),
      alloc.1)
  | some m => ((some m, if debug then [LogEntry.info m] else []), h)
  | none => ((none, if debug then [LogEntry.warn attr value] else []), h)

/-! ### Lookup lemmas for the props merge -/

/-- Lookup distributes over concatenation of props bindings. -/
theorem lookupProp_append (A B : PropObj) (k : String) :
    lookupProp (A ++ B) k =
      match lookupProp A k with
      | some v => some v
      | none => lookupProp B k := by
  induction A with
  | nil => simp [lookupProp]
  | cons p A ih =>
    obtain ⟨k0, v0⟩ := p
    by_cases h : k0 = k <;> simp [lookupProp, h, ih]

/-- Lookup in the updated-in-place part of `assignProps`: a key of `base`
keeps its position, its value replaced by the `extra` value when present. -/
theorem lookupProp_assign_map (base extra : PropObj) (k : String) :
    lookupProp
      (base.map fun p =>
        match lookupProp extra p.1 with
        | some v => (p.1, v)
        | none => p) k =
      match lookupProp base k, lookupProp extra k with
      | some _, some w => some w
      | some v, none => some v
      | none, _ => none := by
  induction base with
  | nil => simp [lookupProp]
  | cons p base ih =>
    obtain ⟨k0, v0⟩ := p
    by_cases h : k0 = k
    · subst h
      cases hx : lookupProp extra k0 <;> simp [lookupProp, hx]
    · cases hx : lookupProp extra k0 <;> simp [lookupProp, hx, h, ih]

/-- Lookup in the appended part of `assignProps`: keys already in `base` are
filtered out, the rest look up as in `extra`. -/
theorem lookupProp_assign_filter (base extra : PropObj) (k : String) :
    lookupProp (extra.filter fun q => (lookupProp base q.1).isNone) k =
      match lookupProp base k with
      | some _ => none
      | none => lookupProp extra k := by
  induction extra with
  | nil => cases lookupProp base k <;> simp [lookupProp]
  | cons q extra ih =>
    obtain ⟨k1, v1⟩ := q
    by_cases h : k1 = k
    · subst h
      cases hb : lookupProp base k1 <;> simp [List.filter, lookupProp, hb, ih]
    · cases hb : lookupProp base k1 <;> simp [List.filter, lookupProp, hb, h, ih]

/-- The merge law of `Object.assign({}, base, extra)`: a key looks up to its
`extra` binding when `extra` names it and to its `base` binding otherwise. -/
theorem lookupProp_assign (base extra : PropObj) (k : String) :
    lookupProp (assignProps base extra) k =
      match lookupProp extra k with
      | some v => some v
      | none => lookupProp base k := by
  rw [assignProps, lookupProp_append, lookupProp_assign_map, lookupProp_assign_filter]
  cases hb : lookupProp base k <;> cases he : lookupProp extra k <;> simp

/-! ### Find lemmas -/

/-- `find?` returns the head of the suffix when nothing before it satisfies
the predicate. -/
theorem find?_first_of_prefix {α : Type} {p : α → Bool} (l1 l2 : List α) (e : α)
    (he : p e = true) (hl1 : ∀ x ∈ l1, p x = false) :
    (l1 ++ e :: l2).find? p = some e := by
  induction l1 with
  | nil => simp [List.find?_cons, he]
  | cons x l1 ih =>
    have hx : p x = false := hl1 x (by simp)
    simpa [List.find?_cons, hx] using ih fun y hy => hl1 y (by simp [hy])

/-! ### The throwing evaluator agrees with the total model -/

/-- The guarded predicate never throws: the `isValidElement` short-circuit
keeps the property access off non-elements, and the evaluation agrees with
the total predicate. -/
theorem matchesE_eq (attr value : String) (cmp : ReactNode) :
    matchesE attr value cmp = Except.ok (matchesNode attr value cmp) := by
  cases cmp <;> simp [matchesE, matchesNode, isValidElement, propsAccessE, propsOf]

/-- `find` with the guarded predicate never throws and agrees with `find?`. -/
theorem findFirstE_eq (attr value : String) (l : List ReactNode) :
    findFirstE (matchesE attr value) l = Except.ok (l.find? (matchesNode attr value)) := by
  induction l with
  | nil => simp [findFirstE]
  | cons x xs ih =>
    cases h : matchesNode attr value x <;>
      simp [findFirstE, matchesE_eq, List.find?_cons, h, ih]

/-! ### Observation lemmas for the heap model -/

mutual
/-- Child flattening commutes with observing a heap node. -/
theorem obsNode_toArray (h : Heap) (n : HNode) :
    childrenToArray (obsNode h n) = (childrenToArray n).map (obsNode h) := by
  cases n with
  | array xs => simp [obsNode, childrenToArray, obsNodeList_toArrayList h xs]
  | element t a => simp [obsNode, childrenToArray]
  | text s => simp [obsNode, childrenToArray]
  | num n => simp [obsNode, childrenToArray]
  | nullNode => simp [obsNode, childrenToArray]
  | boolNode b => simp [obsNode, childrenToArray]

/-- List version of `obsNode_toArray`. -/
theorem obsNodeList_toArrayList (h : Heap) (ns : List HNode) :
    childrenToArrayList (obsNodeList h ns) = (childrenToArrayList ns).map (obsNode h) := by
  cases ns with
  | nil => simp [obsNodeList, childrenToArrayList]
  | cons x xs =>
    simp [obsNodeList, childrenToArrayList, obsNode_toArray h x,
      obsNodeList_toArrayList h xs]
end

/-- The pure find predicate on the observation of a heap node is the heap
find predicate. -/
theorem matchesH_obs (h : Heap) (attr value : String) (cmp : HNode) :
    matchesNode attr value (obsNode h cmp) = matchesH h attr value cmp := by
  cases cmp <;> simp [matchesH, matchesNode, obsNode, isValidElement, propsOf]

/-- Reading back a freshly allocated props object. -/
theorem Heap.get_alloc_fresh (h : Heap) (o : PropObj) :
    (h.alloc o).1.get (h.alloc o).2 = o := by
  simp [Heap.alloc, Heap.get, List.getElem?_concat_length]

/-- Allocation leaves every existing heap cell untouched. -/
theorem Heap.objs_alloc_frame (h : Heap) (o : PropObj) (a : Nat)
    (ha : a < h.objs.length) :
    (h.alloc o).1.objs[a]? = h.objs[a]? := by
  simp [Heap.alloc, List.getElem?_append_left ha]

/-- Dereferencing an existing address is unchanged by allocation. -/
theorem Heap.get_alloc_old (h : Heap) (o : PropObj) (a : Nat)
    (ha : a < h.objs.length) :
    (h.alloc o).1.get a = h.get a := by
  simp [Heap.get, Heap.objs_alloc_frame h o a ha]

/-- Refinement: the heap run, observed through its ending heap, computes the
pure function of the observed children. -/
theorem getCmpByAttrH_obs (h : Heap) (c : HNode) (attr value : String)
    (extra : PropObj) (debug : Bool) :
    ((getCmpByAttrH h c attr value extra debug).1.1).map
        (obsNode (getCmpByAttrH h c attr value extra debug).2)
      = (getCmpByAttrCore (obsNode h c) attr value extra debug).1 := by
  have hcomp : (matchesNode attr value ∘ obsNode h) = matchesH h attr value :=
    funext (matchesH_obs h attr value)
  have hfindeq : (childrenToArray (obsNode h c)).find? (matchesNode attr value)
      = ((childrenToArray c).find? (matchesH h attr value)).map (obsNode h) := by
    rw [obsNode_toArray, List.find?_map, hcomp]
  cases hfind : (childrenToArray c).find? (matchesH h attr value) with
  | none => simp [getCmpByAttrH, getCmpByAttrCore, hfind, hfindeq]
  | some m =>
    have hm := List.find?_some hfind
    cases m with
    | element t a =>
      simp [getCmpByAttrH, getCmpByAttrCore, hfind, hfindeq, obsNode,
        Heap.get_alloc_fresh, cloneElement]
    | text s => simp [matchesH] at hm
    | num n => simp [matchesH] at hm
    | nullNode => simp [matchesH] at hm
    | boolNode b => simp [matchesH] at hm
    | array xs => simp [matchesH] at hm

/-! ### The claims -/

/-- C1: for every child sequence, attribute name and value, the function
returns the clone of the first element in flattened declaration order that is
a valid element whose props have `props[attr] === value`; later matches are
ignored (the suffix `l2` is unconstrained). -/
theorem getCmpByAttr_first_match (children : ReactNode) (attr value : String)
    (extra : PropObj) (debug : Bool) (l1 l2 : List ReactNode) (e : ReactNode)
    (harr : childrenToArray children = l1 ++ e :: l2)
    (he : matchesNode attr value e = true)
    (hbefore : ∀ x ∈ l1, matchesNode attr value x = false) :
    (getCmpByAttrCore children attr value extra debug).1 = some (cloneElement e extra) := by
  simp [getCmpByAttrCore, harr, find?_first_of_prefix l1 l2 e he hbefore]

/-- Witness for C1: among two `data-slot="body"` elements behind a text node,
the first one is cloned. -/
theorem getCmpByAttr_first_match_witness :
    (getCmpByAttrCore
        (Node.array [Node.text "t",
          Node.element "div" [("data-slot", JVal.vStr "body")],
          Node.element "span" [("data-slot", JVal.vStr "body")]])
        "data-slot" "body" [("x", JVal.vNum 1)] true).1
      = some (cloneElement (Node.element "div" [("data-slot", JVal.vStr "body")])
          [("x", JVal.vNum 1)]) :=
  getCmpByAttr_first_match _ "data-slot" "body" _ true
    [Node.text "t"] [Node.element "span" [("data-slot", JVal.vStr "body")]] _
    (by rfl) (by decide) (by decide)

/-- C2: when a match is found, the returned node is the matched element with
every key of `extraProps` overriding (or adding) the corresponding property
and every other property preserved unchanged. -/
theorem getCmpByAttr_clone_merge (children : ReactNode) (attr value : String)
    (extra : PropObj) (debug : Bool) (l1 l2 : List ReactNode) (t : String) (ps : PropObj)
    (harr : childrenToArray children = l1 ++ Node.element t ps :: l2)
    (he : matchesNode attr value (Node.element t ps) = true)
    (hbefore : ∀ x ∈ l1, matchesNode attr value x = false) :
    (getCmpByAttrCore children attr value extra debug).1
        = some (Node.element t (assignProps ps extra))
      ∧ (∀ k v, lookupProp extra k = some v →
          lookupProp (assignProps ps extra) k = some v)
      ∧ (∀ k, lookupProp extra k = none →
          lookupProp (assignProps ps extra) k = lookupProp ps k) := by
  refine ⟨?_, ?_, ?_⟩
  · simp [getCmpByAttrCore, harr, find?_first_of_prefix l1 l2 _ he hbefore, cloneElement]
  · intro k v hk
    simp [lookupProp_assign, hk]
  · intro k hk
    simp [lookupProp_assign, hk]

/-- Witness for C2: `className` is overridden, `data-slot` preserved. -/
theorem getCmpByAttr_clone_merge_witness :
    (getCmpByAttrCore
        (Node.array [Node.element "div"
          [("data-slot", JVal.vStr "h"), ("className", JVal.vStr "old")]])
        "data-slot" "h" [("className", JVal.vStr "x")] false).1
      = some (Node.element "div"
          (assignProps [("data-slot", JVal.vStr "h"), ("className", JVal.vStr "old")]
            [("className", JVal.vStr "x")]))
    ∧ lookupProp (assignProps [("data-slot", JVal.vStr "h"), ("className", JVal.vStr "old")]
          [("className", JVal.vStr "x")]) "className" = some (JVal.vStr "x")
    ∧ lookupProp (assignProps [("data-slot", JVal.vStr "h"), ("className", JVal.vStr "old")]
          [("className", JVal.vStr "x")]) "data-slot" = some (JVal.vStr "h") := by
  have h := getCmpByAttr_clone_merge
    (Node.array [Node.element "div"
      [("data-slot", JVal.vStr "h"), ("className", JVal.vStr "old")]])
    "data-slot" "h" [("className", JVal.vStr "x")] false
    [] [] "div" [("data-slot", JVal.vStr "h"), ("className", JVal.vStr "old")]
    (by rfl) (by decide) (by decide)
  refine ⟨h.1, h.2.1 "className" (JVal.vStr "x") (by decide), ?_⟩
  rw [h.2.2 "data-slot" (by decide)]
  decide

/-- C3: when no child matches, the function returns `null` without raising:
the throwing evaluator ends in `Except.ok` with result `none` (and only the
debug warning as output). -/
theorem getCmpByAttr_no_match_null (children : ReactNode) (attr value : String)
    (extra : PropObj) (debug : Bool)
    (hnone : ∀ x ∈ childrenToArray children, matchesNode attr value x = false) :
    getCmpByAttrE children attr value extra debug
      = Except.ok (none, if debug then [LogEntry.warn attr value] else []) := by
  have hfind : (childrenToArray children).find? (matchesNode attr value) = none :=
    List.find?_eq_none.mpr fun x hx => by simp [hnone x hx]
  simp [getCmpByAttrE, findFirstE_eq, hfind]

/-- Witness for C3: a sequence with a text node and a non-matching element
yields `Except.ok none`. -/
theorem getCmpByAttr_no_match_null_witness :
    getCmpByAttrE
        (Node.array [Node.text "t", Node.element "div" [("data-slot", JVal.vStr "body")]])
        "data-slot" "missing" [] true
      = Except.ok (none, [LogEntry.warn "data-slot" "missing"]) :=
  getCmpByAttr_no_match_null _ "data-slot" "missing" [] true (by decide)

/-- C4: non-element children never satisfy the match predicate, and whatever
the function returns is a valid element (so a string, number, null or boolean
child is never returned). -/
theorem getCmpByAttr_non_element (children : ReactNode) (attr value : String)
    (extra : PropObj) (debug : Bool) :
    (∀ n : ReactNode, isValidElement n = false → matchesNode attr value n = false)
    ∧ (∀ r, (getCmpByAttrCore children attr value extra debug).1 = some r →
        isValidElement r = true) := by
  constructor
  · intro n hn
    simp [matchesNode, hn]
  · intro r hr
    cases hfind : (childrenToArray children).find? (matchesNode attr value) with
    | none => simp [getCmpByAttrCore, hfind] at hr
    | some m =>
      have hm := List.find?_some hfind
      simp [getCmpByAttrCore, hfind] at hr
      cases m with
      | element t ps => simp [← hr, cloneElement, isValidElement]
      | text s => simp [matchesNode, isValidElement] at hm
      | num n => simp [matchesNode, isValidElement] at hm
      | nullNode => simp [matchesNode, isValidElement] at hm
      | boolNode b => simp [matchesNode, isValidElement] at hm
      | array xs => simp [matchesNode, isValidElement] at hm

/-- Witness for C4: a text node never matches, and a returned node is a
valid element. -/
theorem getCmpByAttr_non_element_witness :
    matchesNode "data-slot" "" (Node.text "t") = false
    ∧ isValidElement (Node.element "div" [("data-slot", JVal.vStr "h")] : ReactNode) = true :=
  ⟨(getCmpByAttr_non_element Node.nullNode "data-slot" "" [] false).1
      (Node.text "t") (by decide),
    (getCmpByAttr_non_element
        (Node.array [Node.element "div" [("data-slot", JVal.vStr "h")]])
        "data-slot" "h" [] false).2
      (Node.element "div" [("data-slot", JVal.vStr "h")]) (by rfl)⟩

/-- C5: an omitted `value` defaults to the empty string, so the call returns
a clone of the first valid element whose `attr` property is literally `""`
when one exists. -/
theorem getCmpByAttr_default_value (c : ReactNode) (a : Option String)
    (p : Option PropObj) (d : Option Bool) (l1 l2 : List ReactNode)
    (t : String) (ps : PropObj)
    (harr : childrenToArray c = l1 ++ Node.element t ps :: l2)
    (hv : lookupProp ps (a.getD "data-slot") = some (JVal.vStr ""))
    (hbefore : ∀ x ∈ l1, matchesNode (a.getD "data-slot") "" x = false) :
    (getCmpByAttr (GetCmpByAttrProps.mk c a none p d)).1
      = some (cloneElement (Node.element t ps) (p.getD [])) := by
  have he : matchesNode (a.getD "data-slot") "" (Node.element t ps) = true := by
    simp [matchesNode, isValidElement, propsOf, hv]
  simp [getCmpByAttr, getCmpByAttrCore, harr,
    find?_first_of_prefix l1 l2 _ he hbefore]

/-- Witness for C5: with `value` omitted, the element carrying
`data-slot=""` is selected. -/
theorem getCmpByAttr_default_value_witness :
    (getCmpByAttr (GetCmpByAttrProps.mk
        (Node.array [Node.text "t", Node.element "div" [("data-slot", JVal.vStr "")]])
        none none none none)).1
      = some (cloneElement (Node.element "div" [("data-slot", JVal.vStr "")])
          ((none : Option PropObj).getD [])) :=
  getCmpByAttr_default_value _ none none none
    [Node.text "t"] [] "div" [("data-slot", JVal.vStr "")]
    (by rfl) (by decide) (by decide)

/-- C6: a log is emitted iff `debug = true`; the returned value does not
depend on `debug`; with `debug` on, a match produces exactly the
informational log of the matched node and a miss produces exactly the
warning naming the attribute and the value. -/
theorem getCmpByAttr_debug_logging (children : ReactNode) (attr value : String)
    (extra : PropObj) (debug : Bool) :
    ((getCmpByAttrCore children attr value extra debug).2 = [] ↔ debug = false)
    ∧ (getCmpByAttrCore children attr value extra debug).1
        = (getCmpByAttrCore children attr value extra false).1
    ∧ (∀ m, (childrenToArray children).find? (matchesNode attr value) = some m →
        (getCmpByAttrCore children attr value extra true).2 = [LogEntry.info m])
    ∧ ((childrenToArray children).find? (matchesNode attr value) = none →
        (getCmpByAttrCore children attr value extra true).2 = [LogEntry.warn attr value]) := by
  cases hfind : (childrenToArray children).find? (matchesNode attr value) <;>
    cases debug <;> simp [getCmpByAttrCore, hfind]

/-- Witness for C6: with `debug` on and a match present, the log is exactly
the informational entry for the matched element. -/
theorem getCmpByAttr_debug_logging_witness :
    (getCmpByAttrCore (Node.element "div" [("data-slot", JVal.vStr "h")])
        "data-slot" "h" [] true).2
      = [LogEntry.info (Node.element "div" [("data-slot", JVal.vStr "h")])] :=
  (getCmpByAttr_debug_logging
      (Node.element "div" [("data-slot", JVal.vStr "h")]) "data-slot" "h" [] true).2.2.1
    (Node.element "div" [("data-slot", JVal.vStr "h")]) (by rfl)

/-- C7: the function is total: under throwing JavaScript semantics the
evaluation of every input ends in `Except.ok`, agreeing with the total
model — non-element children are skipped by the `isValidElement` guard
before their property mapping is touched. -/
theorem getCmpByAttr_total (children : ReactNode) (attr value : String)
    (extra : PropObj) (debug : Bool) :
    getCmpByAttrE children attr value extra debug
      = Except.ok (getCmpByAttrCore children attr value extra debug) := by
  cases hfind : (childrenToArray children).find? (matchesNode attr value) <;>
    simp [getCmpByAttrE, findFirstE_eq, getCmpByAttrCore, hfind]

/-- C8: no input is mutated and the output is freshly constructed: every
heap cell existing before the call is unchanged after it (so the child
sequence's and the matched element's props objects are intact), and the
returned element's props object sits at a fresh address. -/
theorem getCmpByAttr_frame (h : Heap) (c : HNode) (attr value : String)
    (extra : PropObj) (debug : Bool) :
    (∀ a, a < h.objs.length →
      (getCmpByAttrH h c attr value extra debug).2.objs[a]? = h.objs[a]?)
    ∧ (∀ t a', (getCmpByAttrH h c attr value extra debug).1.1
          = some (Node.element t a') → h.objs.length ≤ a') := by
  cases hfind : (childrenToArray c).find? (matchesH h attr value) with
  | none =>
    constructor
    · intro a ha
      simp [getCmpByAttrH, hfind]
    · intro t a' hr
      simp [getCmpByAttrH, hfind] at hr
  | some m =>
    have hm := List.find?_some hfind
    cases m with
    | element t a =>
      constructor
      · intro a2 ha2
        simpa [getCmpByAttrH, hfind] using Heap.objs_alloc_frame h _ a2 ha2
      · intro t' a' hr
        simp [getCmpByAttrH, hfind, Heap.alloc] at hr
        omega
    | text s => simp [matchesH] at hm
    | num n => simp [matchesH] at hm
    | nullNode => simp [matchesH] at hm
    | boolNode b => simp [matchesH] at hm
    | array xs => simp [matchesH] at hm

/-- Witness for C8: on a one-cell heap, cell 0 survives the call and the
clone lives at the fresh address 1. -/
theorem getCmpByAttr_frame_witness :
    (getCmpByAttrH (Heap.mk [[("data-slot", JVal.vStr "h")]])
        (Node.element "div" 0) "data-slot" "h" [] false).2.objs[0]?
      = (Heap.mk [[("data-slot", JVal.vStr "h")]]).objs[0]?
    ∧ (1 : Nat) ≤ 1 :=
  ⟨(getCmpByAttr_frame (Heap.mk [[("data-slot", JVal.vStr "h")]])
        (Node.element "div" 0) "data-slot" "h" [] false).1 0 (by decide),
    (getCmpByAttr_frame (Heap.mk [[("data-slot", JVal.vStr "h")]])
        (Node.element "div" 0) "data-slot" "h" [] false).2 "div" 1 (by rfl)⟩

/-- C9: the function is deterministic and pure: two invocations whose
arguments are identical — the children observationally, the rest
syntactically — return observationally identical results, whatever the
heaps; memoization can therefore only be an optimization. -/
theorem getCmpByAttr_pure (h1 h2 : Heap) (c1 c2 : HNode) (attr value : String)
    (extra : PropObj) (debug : Bool)
    (hobs : obsNode h1 c1 = obsNode h2 c2) :
    ((getCmpByAttrH h1 c1 attr value extra debug).1.1).map
        (obsNode (getCmpByAttrH h1 c1 attr value extra debug).2)
      = ((getCmpByAttrH h2 c2 attr value extra debug).1.1).map
        (obsNode (getCmpByAttrH h2 c2 attr value extra debug).2) := by
  rw [getCmpByAttrH_obs, getCmpByAttrH_obs, hobs]

/-- Witness for C9: the same element stored at different addresses of
different heaps yields the same observed clone. -/
theorem getCmpByAttr_pure_witness :
    ((getCmpByAttrH (Heap.mk [[("data-slot", JVal.vStr "h")]])
        (Node.element "div" 0) "data-slot" "h" [] false).1.1).map
        (obsNode (getCmpByAttrH (Heap.mk [[("data-slot", JVal.vStr "h")]])
          (Node.element "div" 0) "data-slot" "h" [] false).2)
      = ((getCmpByAttrH (Heap.mk [[], [("data-slot", JVal.vStr "h")]])
          (Node.element "div" 1) "data-slot" "h" [] false).1.1).map
        (obsNode (getCmpByAttrH (Heap.mk [[], [("data-slot", JVal.vStr "h")]])
          (Node.element "div" 1) "data-slot" "h" [] false).2) :=
  getCmpByAttr_pure (Heap.mk [[("data-slot", JVal.vStr "h")]])
    (Heap.mk [[], [("data-slot", JVal.vStr "h")]])
    (Node.element "div" 0) (Node.element "div" 1) "data-slot" "h" [] false (by rfl)

/-- C10: when `extraProps` itself names `attr`, the clone's `attr` property
is the `extraProps` value; the matched slot value survives on the clone only
when `extraProps` does not name `attr`. -/
theorem getCmpByAttr_extra_overrides_attr (children : ReactNode) (attr value : String)
    (extra : PropObj) (debug : Bool) (l1 l2 : List ReactNode) (t : String) (ps : PropObj)
    (harr : childrenToArray children = l1 ++ Node.element t ps :: l2)
    (hv : lookupProp ps attr = some (JVal.vStr value))
    (hbefore : ∀ x ∈ l1, matchesNode attr value x = false) :
    (getCmpByAttrCore children attr value extra debug).1
        = some (Node.element t (assignProps ps extra))
      ∧ lookupProp (assignProps ps extra) attr
          = match lookupProp extra attr with
            | some v => some v
            | none => some (JVal.vStr value) := by
  have he : matchesNode attr value (Node.element t ps) = true := by
    simp [matchesNode, isValidElement, propsOf, hv]
  constructor
  · simp [getCmpByAttrCore, harr, find?_first_of_prefix l1 l2 _ he hbefore, cloneElement]
  · rw [lookupProp_assign]
    cases lookupProp extra attr <;> simp [hv]

/-- Witness for C10: `extraProps` carrying `data-slot` overrides the
matched `data-slot="h"` on the clone. -/
theorem getCmpByAttr_extra_overrides_attr_witness :
    (getCmpByAttrCore (Node.array [Node.element "div" [("data-slot", JVal.vStr "h")]])
        "data-slot" "h" [("data-slot", JVal.vStr "new")] false).1
        = some (Node.element "div"
            (assignProps [("data-slot", JVal.vStr "h")] [("data-slot", JVal.vStr "new")]))
      ∧ lookupProp (assignProps [("data-slot", JVal.vStr "h")]
            [("data-slot", JVal.vStr "new")]) "data-slot"
          = match lookupProp [("data-slot", JVal.vStr "new")] "data-slot" with
            | some v => some v
            | none => some (JVal.vStr "h") :=
  getCmpByAttr_extra_overrides_attr
    (Node.array [Node.element "div" [("data-slot", JVal.vStr "h")]])
    "data-slot" "h" [("data-slot", JVal.vStr "new")] false
    [] [] "div" [("data-slot", JVal.vStr "h")]
    (by rfl) (by decide) (by decide)
